import Mathlib

/-!
Verification model of the webextension-db provider layer.

The definitions below are shallow embeddings of the TypeScript source:
storage serialization (src/storage/base-storage: BaseStorage.serializeValue /
deserializeValue), the JSON provider (src/providers/json/JsonProvider),
the SQL provider control flow (src/providers/sql/SqlProvider), the ORM
query builder (src/orm), and the backend selector
(src/utils/browser-detection: getBestStorageBackend).

Conventions used throughout:
- JavaScript numbers are modelled as `Int` (every claim exercises integral
  values only; JSON.stringify / JSON.parse round-trips numbers).
- A stored JSON document is modelled as its parsed tree (`JsonValue`):
  `JSON.stringify` / `JSON.parse` are treated as the identity between a
  document and its tree, so `serializeValue` below maps a runtime value
  directly to the tree its stored string parses to.
- JavaScript runtime values accepted by the library (the `StorageValue`
  union type of src/types) are modelled by the inductive `StorageValue`;
  `Date` objects are represented by their ISO string.
- Thrown JavaScript errors are modelled by `JsError` carrying the
  constructor name (`Error`, `ValidationError`, ...), the message, and an
  optional cause; fallible operations return `Except JsError`.
-/

namespace WebExtDB

/-- A parsed JSON tree: what a stored serialized string denotes. -/
inductive JsonValue where
  | jnull : JsonValue
  | jbool : Bool → JsonValue
  | jnum : Int → JsonValue
  | jstr : String → JsonValue
  | jarr : List JsonValue → JsonValue
  | jobj : List (String × JsonValue) → JsonValue

/-- The `StorageValue` union of src/types: string | number | boolean |
null | Date | StorageValue[] | { [key: string]: StorageValue }.
A `Date` is represented by its ISO-8601 string (`toISOString`). -/
inductive StorageValue where
  | vnull : StorageValue
  | vbool : Bool → StorageValue
  | vnum : Int → StorageValue
  | vstr : String → StorageValue
  | vdate : String → StorageValue
  | varr : List StorageValue → StorageValue
  | vobj : List (String × StorageValue) → StorageValue

mutual
/-- The JSON tree `JSON.stringify` produces for a value occurring strictly
inside a larger structure: a nested `Date` serializes via
`Date.prototype.toJSON` to its ISO string, everything else structurally. -/
def toJsonInner : StorageValue → JsonValue
  | .vnull => .jnull
  | .vbool b => .jbool b
  | .vnum n => .jnum n
  | .vstr s => .jstr s
  | .vdate iso => .jstr iso
  | .varr xs => .jarr (toJsonInnerList xs)
  | .vobj fs => .jobj (toJsonInnerFields fs)

def toJsonInnerList : List StorageValue → List JsonValue
  | [] => []
  | x :: xs => toJsonInner x :: toJsonInnerList xs

def toJsonInnerFields :
    List (String × StorageValue) → List (String × JsonValue)
  | [] => []
  | (k, v) :: fs => (k, toJsonInner v) :: toJsonInnerFields fs
end

/-- `BaseStorage.serializeValue` (src/storage/base-storage), at the level
of the JSON tree the stored string parses to: a top-level `Date` becomes
the tagged wrapper `{__type: "Date", value: isoString}`; every other value
is `JSON.stringify`ed structurally (so nested Dates become ISO strings). -/
def serializeValue : StorageValue → JsonValue
  | .vdate iso => .jobj [("__type", .jstr "Date"), ("value", .jstr iso)]
  | v => toJsonInner v

mutual
/-- The JavaScript runtime value `JSON.parse` yields for a JSON tree,
embedded back into `StorageValue` (no Date revival here; that happens
only at the top level of `deserializeValue`). -/
def fromJson : JsonValue → StorageValue
  | .jnull => .vnull
  | .jbool b => .vbool b
  | .jnum n => .vnum n
  | .jstr s => .vstr s
  | .jarr xs => .varr (fromJsonList xs)
  | .jobj fs => .vobj (fromJsonFields fs)

def fromJsonList : List JsonValue → List StorageValue
  | [] => []
  | x :: xs => fromJson x :: fromJsonList xs

def fromJsonFields :
    List (String × JsonValue) → List (String × StorageValue)
  | [] => []
  | (k, v) :: fs => (k, fromJson v) :: fromJsonFields fs
end

/-- Property access `obj.field` on a parsed JSON object (JS objects have
unique keys, so first-occurrence lookup agrees with the runtime). -/
def jsField (fs : List (String × JsonValue)) (k : String) :
    Option JsonValue :=
  List.lookup k fs

/-- The check `parsed.__type === "Date"` of `deserializeValue`. -/
def isDateTag : Option JsonValue → Bool
  | some (.jstr s) => s = "Date"
  | _ => false

/-- `BaseStorage.deserializeValue` (src/storage/base-storage): parse, then
if the result is an object tagged `__type: "Date"` revive a `Date` from
its `value` field (`new Date(parsed.value)`); otherwise return the parsed
value unchanged (no recursive revival). A missing or non-string `value`
field yields an invalid Date, modelled by the string "Invalid Date". -/
def deserializeValue (j : JsonValue) : StorageValue :=
  match j with
  | .jobj fs =>
    if isDateTag (jsField fs "__type") then
      match jsField fs "value" with
      | some (.jstr s) => .vdate s
      | _ => .vdate "Invalid Date"
    else
      fromJson j
  | _ => fromJson j

/-- What a `set` immediately followed by a `get` of the same key returns,
value-wise: every storage backend stores `serializeValue value` and
returns `deserializeValue` of the stored string. -/
def roundTrip (v : StorageValue) : StorageValue :=
  deserializeValue (serializeValue v)

mutual
/-- `true` iff no `Date` occurs anywhere in the value. -/
def noDates : StorageValue → Bool
  | .vnull => true
  | .vbool _ => true
  | .vnum _ => true
  | .vstr _ => true
  | .vdate _ => false
  | .varr xs => noDatesList xs
  | .vobj fs => noDatesFields fs

def noDatesList : List StorageValue → Bool
  | [] => true
  | x :: xs => noDates x && noDatesList xs

def noDatesFields : List (String × StorageValue) → Bool
  | [] => true
  | (_, v) :: fs => noDates v && noDatesFields fs
end

/-- `true` iff the value is a map whose (first) `__type` entry is the
string `"Date"`, i.e. a map that collides with the tagged Date wrapper
and is mis-revived as a `Date` by `deserializeValue`. -/
def isTopTagged : StorageValue → Bool
  | .vobj fs =>
    match List.lookup "__type" fs with
    | some (.vstr "Date") => true
    | _ => false
  | _ => false

/-- A thrown JavaScript error: constructor name (`Error` for `new
Error(...)`, or the subclass name such as `ValidationError`), message, and
optional cause. -/
structure JsError where
  name : String
  msg : String
  cause : Option String
deriving DecidableEq, Repr

/-- `new Error(msg)`. -/
def mkError (msg : String) : JsError := ⟨"Error", msg, none⟩

/-- The physical key/value store a JSON-provider database sits on
(IndexedDB object store / extension storage area, with the adapter-level
`keyPrefix` already stripped, as `BaseStorage.keys` does): an association
of physical keys to stored serialized documents, in insertion order. -/
abbrev Store := List (String × JsonValue)

def kvGet (k : String) (st : Store) : Option JsonValue :=
  List.lookup k st

/-- Write a key: overwrite in place if present, append otherwise. -/
def kvSet (k : String) (v : JsonValue) : Store → Store
  | [] => [(k, v)]
  | (k', v') :: st =>
    if k' = k then (k', v) :: st else (k', v') :: kvSet k v st

def kvDelete (k : String) (st : Store) : Store :=
  st.filter (fun p => p.1 ≠ k)

def kvKeys (st : Store) : List String :=
  st.map Prod.fst

/-- `JsonProvider` key namespacing: the physical key is
`` `${table}:${key}` ``. -/
def physKey (table key : String) : String :=
  table ++ ":" ++ key

/-- `JsonProvider.get`. -/
def jsonGet (table key : String) (st : Store) : Option StorageValue :=
  (kvGet (physKey table key) st).map deserializeValue

/-- `JsonProvider.set`. -/
def jsonSet (table key : String) (v : StorageValue) (st : Store) : Store :=
  kvSet (physKey table key) (serializeValue v) st

/-- `JsonProvider.delete`. -/
def jsonDelete (table key : String) (st : Store) : Store :=
  kvDelete (physKey table key) st

/-- `JsonProvider.exists`. -/
def jsonExists (table key : String) (st : Store) : Bool :=
  (kvGet (physKey table key) st).isSome

/-- `key.startsWith(pre)`, computed on the character lists. -/
def strStartsWith (s pre : String) : Bool :=
  pre.data.isPrefixOf s.data

/-- `JsonProvider.clear`: delete every physical key with prefix
`` `${table}:` ``. -/
def jsonClear (table : String) (st : Store) : Store :=
  st.filter (fun p => !(strStartsWith p.1 (table ++ ":")))

/-- `JsonProvider.createTable`: validates the name only; no state change.
An empty table name is falsy in JavaScript, so `!name` rejects it. -/
def jsonCreateTable (name : String) (st : Store) : Except JsError Store :=
  if name = "" then .error (mkError "Invalid table name") else .ok st

/-- `JsonProvider.dropTable`: delegates to `clear(name)`. -/
def jsonDropTable (name : String) (st : Store) : Except JsError Store :=
  .ok (jsonClear name st)

/-- `JsonProvider.listTables` key parsing: the text before the first `:`
of a physical key, provided `key.indexOf(":") > 0`. -/
def tableNameOf (key : String) : Option String :=
  let pre := key.data.takeWhile (fun c => c ≠ ':')
  if pre.length = key.data.length then none
  else if pre.length = 0 then none
  else some (String.mk pre)

/-- `Set.add` followed by `Array.from`: first-occurrence insertion order. -/
def addUnique (xs : List String) (x : String) : List String :=
  if x ∈ xs then xs else xs ++ [x]

/-- `JsonProvider.listTables`. -/
def jsonListTables (st : Store) : List String :=
  ((kvKeys st).filterMap tableNameOf).foldl addUnique []

/-! ### The ORM layer (src/orm: `QueryBuilder`) -/

inductive TransactionMode where
  | readonly | readwrite
deriving DecidableEq

inductive ColumnType where
  | text | integer | real | blob | boolean | json
deriving DecidableEq

/-- `ColumnDefinition` of src/orm. -/
structure ColumnDefinition where
  type : ColumnType
  primaryKey : Bool := false
  unique : Bool := false
  notNull : Bool := false
  autoIncrement : Bool := false
  defaultValue : Option StorageValue := none

/-- `TableSchema`: an object of column definitions, in declaration order. -/
abbrev TableSchema := List (String × ColumnDefinition)

/-- A row object handed to `insert`/`update` or returned from a query. -/
abbrev RowData := List (String × StorageValue)

inductive WhereOp where
  | eq | ne | gt | lt | ge | le | like | opIn | notIn
deriving DecidableEq

structure WhereCondition where
  column : String
  op : WhereOp
  value : StorageValue

inductive SortDirection where
  | asc | desc
deriving DecidableEq

structure OrderBy where
  column : String
  direction : SortDirection

/-- `QueryOptions` of src/orm; an absent field is the empty list / `none`.
`limit`/`offset` equal to `0` are falsy in JavaScript and ignored. -/
structure QueryOptions where
  whereConds : List WhereCondition := []
  orderBy : List OrderBy := []
  limit : Option Nat := none
  offset : Option Nat := none

/-- JavaScript truthiness of a `StorageValue`. -/
def jsTruthy : StorageValue → Bool
  | .vnull => false
  | .vbool b => b
  | .vnum n => n != 0
  | .vstr s => s ≠ ""
  | .vdate _ => true
  | .varr _ => true
  | .vobj _ => true

/-- Truthiness of a possibly-`undefined` value. -/
def jsTruthyOpt : Option StorageValue → Bool
  | none => false
  | some v => jsTruthy v

/-- Decimal digits of a natural number (fuel-based so that concrete
evaluation reduces definitionally; the fuel `n+1` always suffices). -/
def natDigitsCore : Nat → Nat → List Char → List Char
  | 0, _, acc => acc
  | fuel + 1, n, acc =>
    let d := Char.ofNat (48 + n % 10)
    if n < 10 then d :: acc else natDigitsCore fuel (n / 10) (d :: acc)

def natToString (n : Nat) : String :=
  String.mk (natDigitsCore (n + 1) n [])

/-- Decimal rendering of an integer, as JavaScript `String(n)`. -/
def intToString : Int → String
  | .ofNat m => natToString m
  | .negSucc m => "-" ++ natToString (m + 1)

mutual
/-- JavaScript `String(x)`. A `Date` stringifies to a date string,
modelled by its ISO representation (no claim stringifies a Date). -/
def jsString : StorageValue → String
  | .vnull => "null"
  | .vbool b => if b then "true" else "false"
  | .vnum n => intToString n
  | .vstr s => s
  | .vdate iso => iso
  | .varr xs => jsStringList xs
  | .vobj _ => "[object Object]"

/-- `Array.prototype.toString`: elements joined by `,`, with `null`
elements contributing the empty string. -/
def jsStringList : List StorageValue → String
  | [] => ""
  | [.vnull] => ""
  | [x] => jsString x
  | .vnull :: x :: xs => "," ++ jsStringList (x :: xs)
  | x :: y :: xs => jsString x ++ "," ++ jsStringList (y :: xs)
end

def jsStringOpt : Option StorageValue → String
  | none => "undefined"
  | some v => jsString v

/-- JavaScript strict equality `===`. Maps, lists and `Date`s compare by
reference; a record member freshly produced by deserialization is never
reference-equal to the caller-supplied query operand, so those cases are
`false`. -/
def svStrictEq : StorageValue → StorageValue → Bool
  | .vnull, .vnull => true
  | .vbool a, .vbool b => a == b
  | .vnum a, .vnum b => a == b
  | .vstr a, .vstr b => a == b
  | _, _ => false

def svStrictEqOpt : Option StorageValue → StorageValue → Bool
  | none, _ => false
  | some a, b => svStrictEq a b

/-- JavaScript `ToNumber` on the coercions the library exercises:
`null → 0`, booleans to `0`/`1`, numbers to themselves. Strings, maps,
lists and `Date`s are left incomparable (no claim compares them mixed),
making the relational operators below return `false` as NaN does. -/
def svToNum : StorageValue → Option Int
  | .vnull => some 0
  | .vbool b => some (if b then 1 else 0)
  | .vnum n => some n
  | _ => none

/-- JavaScript `a < b`: string/string compares lexicographically,
otherwise both sides convert to numbers. -/
def svLtVal : StorageValue → StorageValue → Bool
  | .vstr x, .vstr y => decide (x < y)
  | a, b =>
    match svToNum a, svToNum b with
    | some x, some y => decide (x < y)
    | _, _ => false

/-- JavaScript `a <= b` (same comparison, non-strict). -/
def svLeVal : StorageValue → StorageValue → Bool
  | .vstr x, .vstr y => decide (x ≤ y)
  | a, b =>
    match svToNum a, svToNum b with
    | some x, some y => decide (x ≤ y)
    | _, _ => false

/-- `recordValue < conditionValue` where the record value may be
`undefined` (any comparison with `undefined` is `false`). -/
def svLt : Option StorageValue → StorageValue → Bool
  | none, _ => false
  | some a, b => svLtVal a b

def svGt : Option StorageValue → StorageValue → Bool
  | none, _ => false
  | some a, b => svLtVal b a

def svLe : Option StorageValue → StorageValue → Bool
  | none, _ => false
  | some a, b => svLeVal a b

def svGe : Option StorageValue → StorageValue → Bool
  | none, _ => false
  | some a, b => svLeVal b a

/-- Property access `record[column]` (`undefined` off non-objects). -/
def svFieldOf : StorageValue → String → Option StorageValue
  | .vobj fs, c => List.lookup c fs
  | _, _ => none

/-- `String(conditionValue).replace("%", "")`: remove the first `%`. -/
def removeFirstPercent : List Char → List Char
  | [] => []
  | c :: cs => if c = '%' then cs else c :: removeFirstPercent cs

/-- Substring occurrence test on character lists. -/
def listIsInfix (needle : List Char) : List Char → Bool
  | [] => needle.isEmpty
  | c :: t => needle.isPrefixOf (c :: t) || listIsInfix needle t

/-- `String.prototype.includes`. -/
def strIncludes (s sub : String) : Bool :=
  listIsInfix sub.data s.data

/-- One condition of `QueryBuilder.matchesWhereConditions`. -/
def matchesCondition (record : StorageValue) (c : WhereCondition) : Bool :=
  let rv := svFieldOf record c.column
  match c.op with
  | .eq => svStrictEqOpt rv c.value
  | .ne => !(svStrictEqOpt rv c.value)
  | .gt => svGt rv c.value
  | .lt => svLt rv c.value
  | .ge => svGe rv c.value
  | .le => svLe rv c.value
  | .like =>
    strIncludes (jsStringOpt rv)
      (String.mk (removeFirstPercent (jsString c.value).data))
  | .opIn =>
    match c.value with
    | .varr xs => xs.any (fun x => svStrictEqOpt rv x)
    | _ => false
  | .notIn =>
    match c.value with
    | .varr xs => !(xs.any (fun x => svStrictEqOpt rv x))
    | _ => false

/-- `QueryBuilder.matchesWhereConditions`: conjunction of conditions. -/
def matchesWhereConditions (conds : List WhereCondition) (record : StorageValue) :
    Bool :=
  conds.all (matchesCondition record)

/-- `aVal < bVal` on two possibly-`undefined` property reads. -/
def svLtOO : Option StorageValue → Option StorageValue → Bool
  | some a, some b => svLtVal a b
  | _, _ => false

/-- `QueryBuilder.compareRecords`: first non-tied sort key decides,
negated for `DESC`. -/
def compareRecords (orderBy : List OrderBy) (a b : StorageValue) : Int :=
  match orderBy with
  | [] => 0
  | o :: rest =>
    let av := svFieldOf a o.column
    let bv := svFieldOf b o.column
    let comparison : Int :=
      if svLtOO av bv then -1 else if svLtOO bv av then 1 else 0
    if comparison ≠ 0 then
      (if o.direction = .desc then -comparison else comparison)
    else compareRecords rest a b

/-- Stable insertion of `x` (an element earlier in the original array)
before every entry it does not strictly follow. -/
def sortInsert {α : Type} (cmp : α → α → Int) (x : α) : List α → List α
  | [] => [x]
  | y :: ys => if cmp x y ≤ 0 then x :: y :: ys else y :: sortInsert cmp x ys

/-- `Array.prototype.sort` with a comparator (stable, per ES2019). -/
def stableSort {α : Type} (cmp : α → α → Int) : List α → List α
  | [] => []
  | x :: xs => sortInsert cmp x (stableSort cmp xs)

/-- `QueryBuilder.getPrimaryKeyColumn`: first column flagged
`primaryKey`, with fallback `"id"`. -/
def getPrimaryKeyColumn (schema : TableSchema) : String :=
  match schema.find? (fun p => p.2.primaryKey) with
  | some p => p.1
  | none => "id"

/-- An apostrophe (the error messages of `validateData` quote the
offending column name with apostrophes). -/
def sq : String := String.singleton (Char.ofNat 39)

def unknownColumnMsg (column tableName : String) : String :=
  "Column " ++ sq ++ column ++ sq ++ " does not exist in table " ++
    sq ++ tableName ++ sq

def notNullMsg (column : String) : String :=
  "Column " ++ sq ++ column ++ sq ++ " cannot be null"

/-- `value === null || value === undefined`. -/
def isNullish : Option StorageValue → Bool
  | none => true
  | some .vnull => true
  | some _ => false

/-- `QueryBuilder.validateData` (identical for insert and update): first
reject the first data key that is not a schema column, then the first
`notNull` schema column whose value is null or missing. Both rejections
throw a plain `new Error(...)`. -/
def validateData (schema : TableSchema) (tableName : String)
    (data : RowData) : Except JsError Unit :=
  match data.find? (fun p => !((schema.map Prod.fst).contains p.1)) with
  | some p => .error (mkError (unknownColumnMsg p.1 tableName))
  | none =>
    match schema.find?
        (fun p => p.2.notNull && isNullish (List.lookup p.1 data)) with
    | some p => .error (mkError (notNullMsg p.1))
    | none => .ok ()

/-- Object spread update `{...fs, [k]: v}`: overwrite in place if the key
exists, append otherwise. -/
def setField : RowData → String → StorageValue → RowData
  | [], k, v => [(k, v)]
  | (k', v') :: fs, k, v =>
    if k' = k then (k', v) :: fs else (k', v') :: setField fs k v

/-- The table keys an index document yields when
`QueryBuilder.getAllRecordsJSON` iterates it with `for...of`: an array
yields its elements (coerced to strings when used as keys), a string
yields its characters; `undefined`/`null` default to `[]` via `|| []`,
and any other value makes `for...of` throw, which the surrounding
`try`/`catch` turns into no records. -/
def keysOfIndexDoc : Option StorageValue → List String
  | some (.varr xs) => xs.map jsString
  | some (.vstr s) => s.data.map String.singleton
  | _ => []

/-- The index document `QueryBuilder` reads: `get("_indexes",
`` `${table}_index` ``)`. -/
def getIndexKeys (table : String) (st : Store) : List String :=
  keysOfIndexDoc (jsonGet "_indexes" (table ++ "_index") st)

/-- `QueryBuilder.getAllRecordsJSON`: fetch each indexed key, keeping
truthy records, as a key-ordered association (duplicate index entries
overwrite the same property with the same record, so the first
occurrence is kept). -/
def getAllRecordsJSON (table : String) (st : Store) :
    List (String × StorageValue) :=
  (getIndexKeys table st).foldl
    (fun acc k =>
      match jsonGet table k st with
      | some v =>
        if jsTruthy v then
          if acc.any (fun p => p.1 = k) then acc else acc ++ [(k, v)]
        else acc
      | none => acc)
    []

/-- `QueryBuilder.findAllJSON`: records in index order, filtered by the
conjunctive `where` list, sorted when a sort spec is present, then
offset/limit (a zero limit/offset is falsy and ignored). -/
def findAllJSON (table : String) (opts : QueryOptions) (st : Store) :
    List StorageValue :=
  let results := (getAllRecordsJSON table st).map Prod.snd
  let results :=
    if opts.whereConds.length > 0 then
      results.filter (matchesWhereConditions opts.whereConds)
    else results
  let results :=
    if opts.orderBy.length > 0 then
      stableSort (compareRecords opts.orderBy) results
    else results
  let results :=
    match opts.offset with
    | some n => if n = 0 then results else results.drop n
    | none => results
  match opts.limit with
  | some n => if n = 0 then results else results.take n
  | none => results

/-- `QueryBuilder.countJSON`. -/
def countJSON (table : String) (opts : QueryOptions) (st : Store) : Nat :=
  (findAllJSON table opts st).length

/-- `{...record, ...data}` (spread of a primitive contributes nothing). -/
def mergeRow (record : StorageValue) (data : RowData) : StorageValue :=
  match record with
  | .vobj fs => .vobj (data.foldl (fun fs kv => setField fs kv.1 kv.2) fs)
  | _ => .vobj data

/-- `QueryBuilder.updateJSON`: rewrite every indexed record matching the
conditions; returns the count and the evolved store. -/
def updateJSON (table : String) (data : RowData) (opts : QueryOptions)
    (st : Store) : Nat × Store :=
  (getAllRecordsJSON table st).foldl
    (fun acc kv =>
      if matchesWhereConditions opts.whereConds kv.2 then
        (acc.1 + 1, jsonSet table kv.1 (mergeRow kv.2 data) acc.2)
      else acc)
    (0, st)

/-- `QueryBuilder.deleteJSON`. -/
def deleteJSON (table : String) (opts : QueryOptions) (st : Store) :
    Nat × Store :=
  (getAllRecordsJSON table st).foldl
    (fun acc kv =>
      if matchesWhereConditions opts.whereConds kv.2 then
        (acc.1 + 1, jsonDelete table kv.1 acc.2)
      else acc)
    (0, st)

/-- `QueryBuilder.generateNextIdJSON`: read the counter document
(`|| 0` when absent; no library write ever stores a non-number there),
increment, write it back. -/
def generateNextIdJSON (table : String) (st : Store) : Int × Store :=
  let currentCounter : Int :=
    match jsonGet "_counters" (table ++ "_counter") st with
    | some (.vnum n) => n
    | _ => 0
  let nextId := currentCounter + 1
  (nextId, jsonSet "_counters" (table ++ "_counter") (.vnum nextId) st)

/-- `QueryBuilder.insertJSON`: generate the primary key from the counter
when the schema marks it auto-increment and the supplied value is falsy,
then store the record at `String(id)`. Note: the `_indexes` document is
never touched. -/
def insertJSON (schema : TableSchema) (table : String) (data : RowData)
    (st : Store) : RowData × Store :=
  let primaryKey := getPrimaryKeyColumn schema
  let idOpt := List.lookup primaryKey data
  let auto :=
    match List.lookup primaryKey schema with
    | some d => d.autoIncrement
    | none => false
  if auto && !(jsTruthyOpt idOpt) then
    let gen := generateNextIdJSON table st
    let data' := setField data primaryKey (.vnum gen.1)
    (data', jsonSet table (jsString (.vnum gen.1)) (.vobj data') gen.2)
  else
    (data, jsonSet table (jsStringOpt idOpt) (.vobj data) st)

/-- `QueryBuilder.insert` on the json provider: validate, then
`insertJSON`; a validation error is thrown before any write. -/
def ormInsertJSON (schema : TableSchema) (table : String) (data : RowData)
    (st : Store) : Except JsError RowData × Store :=
  match validateData schema table data with
  | .error e => (.error e, st)
  | .ok _ =>
    let r := insertJSON schema table data st
    (.ok r.1, r.2)

/-- A sequence of `insert` calls (failed validations leave the store
unchanged, successful inserts thread it). -/
def applyInserts (schema : TableSchema) (table : String)
    (datas : List RowData) (st : Store) : Store :=
  datas.foldl (fun st data => (ormInsertJSON schema table data st).2) st

/-! ### The relational strategy (spec §4.5)

The SQL statements `QueryBuilder` compiles are executed by the wa-sqlite
engine, an external dependency not present in this repository; the
relational execution below is therefore modelled from the spec. -/

/-- Modelled from the spec: a relation created for an ORM table — its
rows in insertion (rowid) order. -/
abbrev Relation := List RowData

/-- Modelled from the spec: `INSERT` under the relational strategy.
When the schema marks the primary key auto-increment and the caller
omitted it, the engine assigns the next rowid (sequential from 1) and
`insertSQL` re-reads it via `last_insert_rowid()`. -/
def relInsert (schema : TableSchema) (rows : Relation) (data : RowData) :
    Relation :=
  let primaryKey := getPrimaryKeyColumn schema
  let auto :=
    match List.lookup primaryKey schema with
    | some d => d.autoIncrement
    | none => false
  if auto && !(jsTruthyOpt (List.lookup primaryKey data)) then
    rows ++ [setField data primaryKey (.vnum (Int.ofNat rows.length + 1))]
  else
    rows ++ [data]

/-- Modelled from the spec: a sequence of relational inserts. -/
def relApplyInserts (schema : TableSchema) (datas : List RowData)
    (rows : Relation) : Relation :=
  datas.foldl (relInsert schema) rows

/-- Modelled from the spec: `SELECT` compiled by `buildSelectSQL` —
conjunctive predicates, multi-key `ORDER BY`, then `OFFSET`/`LIMIT`
(emitted only when the caller passed them). -/
def relFindAll (opts : QueryOptions) (rows : Relation) : Relation :=
  let rs := rows.filter
    (fun r => matchesWhereConditions opts.whereConds (.vobj r))
  let rs :=
    if opts.orderBy.length > 0 then
      stableSort (fun a b => compareRecords opts.orderBy (.vobj a) (.vobj b)) rs
    else rs
  let rs :=
    match opts.offset with
    | some n => if n = 0 then rs else rs.drop n
    | none => rs
  match opts.limit with
  | some n => if n = 0 then rs else rs.take n
  | none => rs

/-! ### The cross-strategy scenario of spec §8 -/

def c2Schema : TableSchema :=
  [("id", { type := .integer, primaryKey := true, autoIncrement := true }),
   ("name", { type := .text }),
   ("age", { type := .integer })]

def c2Datas : List RowData :=
  [[("name", .vstr "A"), ("age", .vnum 20)],
   [("name", .vstr "B"), ("age", .vnum 30)],
   [("name", .vstr "C"), ("age", .vnum 25)]]

def c2Opts : QueryOptions :=
  { whereConds := [⟨"age", .gt, .vnum 21⟩],
    orderBy := [⟨"age", .asc⟩] }

def c5Schema : TableSchema :=
  [("name", { type := .text }),
   ("age", { type := .integer, notNull := true })]

/-! ### The JSON provider transaction wrapper
(`JsonProvider.createTransactionWrapper`) -/

/-- The wrapper object: a mode and an `isActive` flag that is set to
`true` at creation and never modified afterwards. -/
structure JsonTx where
  mode : TransactionMode
  isActive : Bool

def jsonTxWrapper (mode : TransactionMode) : JsonTx := ⟨mode, true⟩

/-- Wrapper `get`: delegates to storage regardless of any prior
`commit`/`rollback`; never fails. -/
def jsonTxGet (st : Store) (table key : String) :
    Except JsError (Option StorageValue) :=
  .ok (jsonGet table key st)

def jsonTxSet (st : Store) (table key : String) (v : StorageValue) :
    Except JsError Store :=
  .ok (jsonSet table key v st)

def jsonTxDelete (st : Store) (table key : String) : Except JsError Store :=
  .ok (jsonDelete table key st)

def jsonTxExists (st : Store) (table key : String) : Except JsError Bool :=
  .ok (jsonExists table key st)

def jsonTxClear : Except JsError Store :=
  .error (mkError "Clear operation not supported in transactions")

/-- Wrapper `commit`: a no-op; in particular it does not deactivate the
wrapper. -/
def jsonTxCommit (tx : JsonTx) : Except JsError JsonTx :=
  .ok tx

/-- Wrapper `rollback`: always throws, in every state. -/
def jsonTxRollback (_tx : JsonTx) : Except JsError Unit :=
  .error (mkError "Rollback not supported")

/-! ### The SQL provider (src/providers/sql/SqlProvider.ts)

The statements `SqlTransaction` issues run on the wa-sqlite engine, an
external dependency not in this repository. The engine is modelled from
the spec (§4.4, §6): named relations of default shape
`(key TEXT PRIMARY KEY, value TEXT NOT NULL)`; a statement against a
missing relation fails; `BEGIN`/`COMMIT`/`ROLLBACK` are native —
rollback restores the pre-transaction state. -/

/-- Modelled from the spec: the engine state — named relations holding
key/value rows (the stored `value` column is the `JSON.stringify` of the
record, i.e. a JSON tree). -/
abbrev SqlStore := List (String × Store)

def sqlTableRows (table : String) (db : SqlStore) : Option Store :=
  List.lookup table db

/-- Replace the row set of an (existing) relation. -/
def sqlSetTable (table : String) (rows : Store) : SqlStore → SqlStore
  | [] => []
  | (t, rs) :: db =>
    if t = table then (t, rows) :: db else (t, rs) :: sqlSetTable table rows db

def noSuchTableErr (table : String) : JsError :=
  mkError ("no such table: " ++ table)

/-- `new Error("Transaction is no longer active")` — the error every
`SqlTransaction` member throws once `isActive` is `false`. -/
def inactiveErr : JsError := mkError "Transaction is no longer active"

/-- An in-flight `SqlTransaction` (native path): its mode, the
`isActive` flag, and the engine state as seen inside the transaction. -/
structure SqlTx where
  mode : TransactionMode
  isActive : Bool
  db : SqlStore

/-- `SqlTransaction.get`: gate on `isActive`, then
`SELECT value FROM t WHERE key = ?` and `JSON.parse` the hit. -/
def sqlTxGet (tx : SqlTx) (table key : String) :
    Except JsError (Option StorageValue) :=
  if !tx.isActive then .error inactiveErr else
  match sqlTableRows table tx.db with
  | none => .error (noSuchTableErr table)
  | some rows => .ok ((List.lookup key rows).map fromJson)

/-- `SqlTransaction.set`: gate, then `INSERT OR REPLACE INTO t (key,
value) VALUES (?, JSON.stringify(value))` (no Date tagging on this
path). -/
def sqlTxSet (tx : SqlTx) (table key : String) (v : StorageValue) :
    Except JsError SqlTx :=
  if !tx.isActive then .error inactiveErr else
  match sqlTableRows table tx.db with
  | none => .error (noSuchTableErr table)
  | some rows =>
    .ok { tx with db := sqlSetTable table (kvSet key (toJsonInner v) rows) tx.db }

/-- `SqlTransaction.delete`. -/
def sqlTxDelete (tx : SqlTx) (table key : String) : Except JsError SqlTx :=
  if !tx.isActive then .error inactiveErr else
  match sqlTableRows table tx.db with
  | none => .error (noSuchTableErr table)
  | some rows =>
    .ok { tx with db := sqlSetTable table (kvDelete key rows) tx.db }

/-- `SqlTransaction.exists`. -/
def sqlTxExists (tx : SqlTx) (table key : String) : Except JsError Bool :=
  if !tx.isActive then .error inactiveErr else
  match sqlTableRows table tx.db with
  | none => .error (noSuchTableErr table)
  | some rows => .ok (List.lookup key rows).isSome

/-- `SqlTransaction.clear`: `DELETE FROM t`. -/
def sqlTxClear (tx : SqlTx) (table : String) : Except JsError SqlTx :=
  if !tx.isActive then .error inactiveErr else
  match sqlTableRows table tx.db with
  | none => .error (noSuchTableErr table)
  | some _ => .ok { tx with db := sqlSetTable table [] tx.db }

/-- `SqlTransaction.commit`: gate, `COMMIT`, then deactivate. -/
def sqlTxCommit (tx : SqlTx) : Except JsError SqlTx :=
  if !tx.isActive then .error inactiveErr else
  .ok { tx with isActive := false }

/-- `SqlTransaction.rollback`: gate, `ROLLBACK`, then deactivate (the
engine-level state restoration is applied by the provider wrapper). -/
def sqlTxRollback (tx : SqlTx) : Except JsError SqlTx :=
  if !tx.isActive then .error inactiveErr else
  .ok { tx with isActive := false }

inductive BatchOpType where
  | set | delete | clear
deriving DecidableEq

/-- One entry of `batch(operations)`. -/
structure BatchOperation where
  type : BatchOpType
  table : String
  key : Option String := none
  value : Option StorageValue := none

/-- `op.key &&`: truthiness of the key field. -/
def opKeyTruthy : Option String → Bool
  | none => false
  | some s => s ≠ ""

/-- One iteration of `SqlTransaction.processBatch`: `set` entries need a
truthy key and a non-`undefined` value, `delete` entries a truthy key;
entries failing the guard are skipped. -/
def sqlTxApplyOp (tx : SqlTx) (op : BatchOperation) : Except JsError SqlTx :=
  match op.type with
  | .set =>
    match op.value with
    | some v => if opKeyTruthy op.key then
        sqlTxSet tx op.table ((op.key).getD "") v
      else .ok tx
    | none => .ok tx
  | .delete =>
    if opKeyTruthy op.key then sqlTxDelete tx op.table ((op.key).getD "")
    else .ok tx
  | .clear => sqlTxClear tx op.table

/-- `SqlTransaction.processBatch`: the operations in order, stopping at
the first failure. -/
def processBatch (tx : SqlTx) (ops : List BatchOperation) :
    Except JsError SqlTx :=
  ops.foldlM sqlTxApplyOp tx

/-- `SqlProvider.batch` (native path): `transaction("readwrite", tx =>
tx.processBatch(ops))` — `BEGIN IMMEDIATE`, the operations, then
`COMMIT` on success; on any failure `ROLLBACK` restores the pre-batch
engine state and the error is re-thrown. Returns the visible engine
state and the surfaced error, if any. -/
def sqlProviderBatch (ops : List BatchOperation) (db : SqlStore) :
    SqlStore × Option JsError :=
  match processBatch ⟨.readwrite, true, db⟩ ops with
  | .ok tx' => (tx'.db, none)
  | .error e => (db, some e)

/-- `SqlProvider.transaction` (native path) control flow, abstracted
over the callback outcome and the `COMMIT`/`ROLLBACK` exec outcomes
(which the external engine decides): `try { r = cb(tx); tx.commit();
return r } catch (e) { tx.rollback(); throw e }`. Returns the surfaced
outcome and whether a rollback was attempted. -/
def sqlProviderTransactionRun {α : Type} (cb : Except JsError α)
    (commitExec rollbackExec : Except JsError Unit) :
    Except JsError α × Bool :=
  match cb with
  | .ok a =>
    match commitExec with
    | .ok _ => (.ok a, false)
    | .error ec =>
      match rollbackExec with
      | .ok _ => (.error ec, true)
      | .error er => (.error er, true)
  | .error e =>
    match rollbackExec with
    | .ok _ => (.error e, true)
    | .error er => (.error er, true)

/-- `JsonProvider.transaction`: creates the wrapper and runs the
callback directly — no rollback is ever attempted and the callback
outcome propagates unchanged. -/
def jsonProviderTransactionRun {α : Type} (cb : Except JsError α) :
    Except JsError α × Bool :=
  (cb, false)

/-! ### The backend selector (src/utils/browser-detection.ts) -/

inductive BrowserType where
  | chrome | firefox | safari | unknown
deriving DecidableEq

/-- The capability fields `getBestStorageBackend` consults (a snapshot
of `getBrowserCapabilities()`, whose `browser` field is
`detectBrowser()`). -/
structure BrowserCapabilities where
  browser : BrowserType
  hasIndexedDB : Bool
  hasOPFS : Bool
  supportsWASM : Bool
  hasChromeStorage : Bool
  hasBrowserStorage : Bool
deriving DecidableEq

/-- The `StorageBackendType` enumeration of src/types. -/
inductive StorageBackendType where
  | opfs | indexeddb | chromeStorage | browserStorage | localstorage
deriving DecidableEq

inductive DatabaseProviderType where
  | sqlite | json | auto
deriving DecidableEq

/-- `getBestStorageBackend(preferredType)` as a function of the
capability snapshot. -/
def getBestStorageBackend (preferredType : DatabaseProviderType)
    (caps : BrowserCapabilities) : StorageBackendType :=
  match preferredType with
  | .sqlite =>
    if caps.hasOPFS ∧ caps.supportsWASM then .opfs
    else if caps.hasIndexedDB then .indexeddb
    else if caps.hasChromeStorage then .chromeStorage
    else if caps.hasBrowserStorage then .browserStorage
    else .localstorage
  | .json =>
    if caps.browser = .safari then
      if caps.hasIndexedDB then .indexeddb
      else if caps.hasBrowserStorage then .browserStorage
      else .localstorage
    else
      if caps.hasChromeStorage then .chromeStorage
      else if caps.hasBrowserStorage then .browserStorage
      else if caps.hasIndexedDB then .indexeddb
      else .localstorage
  | .auto =>
    if caps.browser = .chrome ∧ caps.hasChromeStorage then .chromeStorage
    else if caps.browser = .safari then
      if caps.hasIndexedDB then .indexeddb
      else if caps.hasBrowserStorage then .browserStorage
      else .localstorage
    else if caps.browser = .firefox ∧ caps.hasBrowserStorage then
      .browserStorage
    else if caps.hasIndexedDB then .indexeddb
    else .localstorage

/-- The closed backend-identifier enumeration. -/
def allStorageBackends : List StorageBackendType :=
  [.opfs, .indexeddb, .chromeStorage, .browserStorage, .localstorage]

mutual
theorem fromJson_toJsonInner :
    ∀ (v : StorageValue), noDates v = true → fromJson (toJsonInner v) = v
  | .vnull, _ => rfl
  | .vbool _, _ => rfl
  | .vnum _, _ => rfl
  | .vstr _, _ => rfl
  | .vdate _, h => by simp [noDates] at h
  | .varr xs, h => by
      have hl := fromJson_toJsonInnerList xs (by simpa [noDates] using h)
      simp only [toJsonInner, fromJson, hl]
  | .vobj fs, h => by
      have hl := fromJson_toJsonInnerFields fs (by simpa [noDates] using h)
      simp only [toJsonInner, fromJson, hl]

theorem fromJson_toJsonInnerList :
    ∀ (xs : List StorageValue), noDatesList xs = true →
      fromJsonList (toJsonInnerList xs) = xs
  | [], _ => rfl
  | x :: xs, h => by
      have hx : noDates x = true := by
        simp [noDatesList, Bool.and_eq_true] at h; exact h.1
      have hxs : noDatesList xs = true := by
        simp [noDatesList, Bool.and_eq_true] at h; exact h.2
      simp only [toJsonInnerList, fromJsonList,
        fromJson_toJsonInner x hx, fromJson_toJsonInnerList xs hxs]

theorem fromJson_toJsonInnerFields :
    ∀ (fs : List (String × StorageValue)), noDatesFields fs = true →
      fromJsonFields (toJsonInnerFields fs) = fs
  | [], _ => rfl
  | (k, v) :: fs, h => by
      have hv : noDates v = true := by
        simp [noDatesFields, Bool.and_eq_true] at h; exact h.1
      have hfs : noDatesFields fs = true := by
        simp [noDatesFields, Bool.and_eq_true] at h; exact h.2
      simp only [toJsonInnerFields, fromJsonFields,
        fromJson_toJsonInner v hv, fromJson_toJsonInnerFields fs hfs]
end

theorem lookup_toJsonInnerFields (k : String) :
    ∀ (fs : List (String × StorageValue)),
      List.lookup k (toJsonInnerFields fs) =
        (List.lookup k fs).map toJsonInner
  | [] => rfl
  | (k', v) :: fs => by
      simp only [toJsonInnerFields, List.lookup]
      by_cases h : k == k' <;> simp [h, lookup_toJsonInnerFields k fs]

theorem deserializeValue_toJsonInner (v : StorageValue)
    (hnd : noDates v = true) (hnt : isTopTagged v = false) :
    deserializeValue (toJsonInner v) = v := by
  match v with
  | .vnull => rfl
  | .vbool _ => rfl
  | .vnum _ => rfl
  | .vstr _ => rfl
  | .vdate _ => simp [noDates] at hnd
  | .varr xs =>
      simp only [toJsonInner, deserializeValue]
      exact fromJson_toJsonInner (.varr xs) hnd
  | .vobj fs =>
      simp only [toJsonInner, deserializeValue]
      have htag : isDateTag (jsField (toJsonInnerFields fs) "__type") = false := by
        simp only [jsField, lookup_toJsonInnerFields]
        match hm : List.lookup "__type" fs with
        | none => simp [isDateTag]
        | some w =>
          simp only [Option.map]
          match w with
          | .vnull => simp [toJsonInner, isDateTag]
          | .vbool _ => simp [toJsonInner, isDateTag]
          | .vnum _ => simp [toJsonInner, isDateTag]
          | .varr _ => simp [toJsonInner, isDateTag]
          | .vobj _ => simp [toJsonInner, isDateTag]
          | .vstr s =>
            simp only [toJsonInner, isDateTag]
            by_cases hs : s = "Date"
            · subst hs; simp [isTopTagged, hm] at hnt
            · simp [hs]
          | .vdate iso =>
            exfalso
            have : noDates (StorageValue.vdate iso) = true := by
              clear hnt
              induction fs with
              | nil => simp [List.lookup] at hm
              | cons p fs ih =>
                match p with
                | (k', v') =>
                  simp only [List.lookup] at hm
                  by_cases hk : "__type" == k'
                  · simp only [hk, if_pos] at hm
                    cases hm
                    simp [noDatesFields, Bool.and_eq_true, noDates] at hnd
                  · simp only [hk] at hm
                    have : noDatesFields fs = true := by
                      simp [noDatesFields, Bool.and_eq_true, noDates] at hnd
                      exact hnd.2
                    exact ih this hm
            simp [noDates] at this
      rw [if_neg (by simp [htag])]
      exact fromJson_toJsonInner (.vobj fs) hnd

theorem kvGet_kvSet_self (k : String) (v : JsonValue) :
    ∀ (st : Store), kvGet k (kvSet k v st) = some v
  | [] => by simp [kvGet, kvSet, List.lookup]
  | (k', v') :: st => by
      simp only [kvSet]
      by_cases h : k' = k
      · simp [h, kvGet, List.lookup]
      · simp only [if_neg h, kvGet, List.lookup]
        have : (k == k') = false := by
          simp [beq_iff_eq]; exact fun hk => h hk.symm
        simp [this]
        exact kvGet_kvSet_self k v st

theorem serializeValue_of_noDates (v : StorageValue)
    (h : noDates v = true) : serializeValue v = toJsonInner v := by
  cases v <;> first
    | rfl
    | simp [noDates] at h

theorem roundTrip_eq_self (v : StorageValue)
    (h : (noDates v = true ∧ isTopTagged v = false) ∨
         ∃ iso, v = .vdate iso) :
    roundTrip v = v := by
  rcases h with ⟨hnd, hnt⟩ | ⟨iso, rfl⟩
  · unfold roundTrip
    rw [serializeValue_of_noDates v hnd]
    exact deserializeValue_toJsonInner v hnd hnt
  · rfl

/-- C1: set/get round-trip. On an initialized JSON-provider database,
`set(t,k,v)` followed by `get(t,k)` returns a value structurally equal to
`v`, provided `v` contains no `Date` strictly inside a map or list and is
not itself a map carrying the reserved tag `__type: "Date"`; a top-level
`Date` round-trips through the tagged encoding
`{__type: "Date", value: isoString}`. (Amended from the original claim:
Dates nested inside maps/lists come back as their ISO strings, and a map
tagged `__type: "Date"` comes back as a `Date` — see the counterexample.) -/
theorem C1_set_get_roundtrip (t k : String) (v : StorageValue) (st : Store)
    (h : (noDates v = true ∧ isTopTagged v = false) ∨
         ∃ iso, v = .vdate iso) :
    jsonGet t k (jsonSet t k v st) = some v := by
  unfold jsonGet jsonSet
  rw [kvGet_kvSet_self]
  simp only [Option.map]
  rw [show deserializeValue (serializeValue v) = v from roundTrip_eq_self v h]

/-- C1 counterexample: the round-trip fails as universally stated. For the
supported value `{d: Date}` (a map with a Date member — the documented
example for `StorageValue` in src/types even shows such a value),
`set("t","k",v)` followed by `get("t","k")` returns `{d: isoString}`:
the nested Date comes back as its ISO string, not deep-equal to `v`. -/
theorem C1_counterexample :
    jsonGet "t" "k"
        (jsonSet "t" "k"
          (.vobj [("d", .vdate "2024-05-01T00:00:00.000Z")]) []) =
      some (.vobj [("d", .vstr "2024-05-01T00:00:00.000Z")]) ∧
    StorageValue.vobj [("d", .vstr "2024-05-01T00:00:00.000Z")] ≠
      StorageValue.vobj [("d", .vdate "2024-05-01T00:00:00.000Z")] := by
  constructor
  · rfl
  · simp

/-- Witness for `C1_set_get_roundtrip`: concrete applications at a
top-level Date and at a Date-free nested map. -/
theorem C1_witness :
    jsonGet "logs" "last"
        (jsonSet "logs" "last" (.vdate "2024-05-01T00:00:00.000Z") []) =
      some (.vdate "2024-05-01T00:00:00.000Z") ∧
    jsonGet "users" "u1"
        (jsonSet "users" "u1"
          (.vobj [("name", .vstr "John"), ("age", .vnum 30),
                  ("active", .vbool true), ("note", .vnull),
                  ("tags", .varr [.vstr "a", .vnum 1])]) []) =
      some (.vobj [("name", .vstr "John"), ("age", .vnum 30),
                   ("active", .vbool true), ("note", .vnull),
                   ("tags", .varr [.vstr "a", .vnum 1])]) := by
  constructor
  · exact C1_set_get_roundtrip "logs" "last" _ []
      (Or.inr ⟨"2024-05-01T00:00:00.000Z", rfl⟩)
  · exact C1_set_get_roundtrip "users" "u1" _ []
      (Or.inl (by constructor <;> rfl))

theorem kvGet_kvSet_ne (k w : String) (v : JsonValue) (h : k ≠ w) :
    ∀ (st : Store), kvGet k (kvSet w v st) = kvGet k st
  | [] => by
      have hb : (k == w) = false := by
        simp only [beq_eq_false_iff_ne]; exact h
      simp [kvGet, kvSet, List.lookup, hb]
  | (k', v') :: st => by
      simp only [kvSet]
      by_cases hk : k' = w
      · subst hk
        have : (k == k') = false := by simp [beq_iff_eq, h]
        simp [kvGet, List.lookup, this]
      · simp only [if_neg hk, kvGet, List.lookup]
        by_cases hkk : k == k'
        · simp [hkk]
        · simp only [hkk]
          exact kvGet_kvSet_ne k w v h st

theorem lookup_jsonClear_kept (pre k : String)
    (h : strStartsWith k pre = false) :
    ∀ (st : Store),
      List.lookup k (st.filter (fun p => !(strStartsWith p.1 pre))) =
        List.lookup k st
  | [] => rfl
  | (k', v') :: st => by
      by_cases hp : strStartsWith k' pre
      · simp only [List.filter, hp, Bool.not_true]
        have : (k == k') = false := by
          simp only [beq_eq_false_iff_ne]
          intro he; rw [he] at h; rw [hp] at h; cases h
        simp only [List.lookup, this]
        exact lookup_jsonClear_kept pre k h st
      · simp only [List.filter, Bool.not_eq_true] at hp
        simp only [List.filter, hp, Bool.not_false, List.lookup]
        by_cases hkk : k == k'
        · simp [hkk]
        · simp only [hkk]
          exact lookup_jsonClear_kept pre k h st

theorem lookup_jsonClear_dropped (pre k : String)
    (h : strStartsWith k pre = true) :
    ∀ (st : Store),
      List.lookup k (st.filter (fun p => !(strStartsWith p.1 pre))) = none
  | [] => rfl
  | (k', v') :: st => by
      by_cases hp : strStartsWith k' pre
      · simp only [List.filter, hp, Bool.not_true]
        exact lookup_jsonClear_dropped pre k h st
      · simp only [Bool.not_eq_true] at hp
        simp only [List.filter, hp, Bool.not_false, List.lookup]
        have : (k == k') = false := by
          simp only [beq_eq_false_iff_ne]
          intro he; rw [he] at h; rw [hp] at h; cases h
        simp only [this]
        exact lookup_jsonClear_dropped pre k h st

theorem physKey_startsWith (t k : String) :
    strStartsWith (physKey t k) (t ++ ":") = true := by
  unfold strStartsWith physKey
  rw [List.isPrefixOf_iff_prefix]
  rw [String.data_append (t ++ ":") k]
  exact List.prefix_append _ _

theorem keysOfIndexDoc_roundTrip_obj (fs : List (String × StorageValue)) :
    keysOfIndexDoc (some (deserializeValue (serializeValue (.vobj fs)))) =
      [] := by
  show keysOfIndexDoc
      (some (deserializeValue (.jobj (toJsonInnerFields fs)))) = []
  by_cases h : isDateTag (jsField (toJsonInnerFields fs) "__type")
  · simp only [deserializeValue, h, if_true]
    cases hv : jsField (toJsonInnerFields fs) "value" with
    | none => rfl
    | some j => cases j <;> rfl
  · simp only [deserializeValue, h]
    simp [fromJson, keysOfIndexDoc]

theorem keysOfIndexDoc_roundTrip_num (n : Int) :
    keysOfIndexDoc (some (deserializeValue (serializeValue (.vnum n)))) =
      [] := rfl

theorem getIndexKeys_jsonSet (t tbl k : String) (v : StorageValue)
    (st : Store) (h0 : getIndexKeys t st = [])
    (hv : keysOfIndexDoc (some (deserializeValue (serializeValue v))) = []) :
    getIndexKeys t (jsonSet tbl k v st) = [] := by
  unfold getIndexKeys jsonGet at h0 ⊢
  unfold jsonSet
  by_cases hw : physKey tbl k = physKey "_indexes" (t ++ "_index")
  · rw [hw, kvGet_kvSet_self]
    simpa [Option.map] using hv
  · rw [kvGet_kvSet_ne _ _ _ (fun he => hw he.symm)]
    exact h0

theorem getIndexKeys_ormInsert (schema : TableSchema) (t : String)
    (data : RowData) (st : Store) (h0 : getIndexKeys t st = []) :
    getIndexKeys t ((ormInsertJSON schema t data st).2) = [] := by
  unfold ormInsertJSON
  cases hval : validateData schema t data with
  | error e => simpa using h0
  | ok u =>
    simp only []
    unfold insertJSON
    by_cases hauto :
        ((match List.lookup (getPrimaryKeyColumn schema) schema with
          | some d => d.autoIncrement
          | none => false) &&
         !(jsTruthyOpt (List.lookup (getPrimaryKeyColumn schema) data))) = true
    · simp only [hauto, if_true]
      refine getIndexKeys_jsonSet _ _ _ _ _ ?_
        (keysOfIndexDoc_roundTrip_obj _)
      show getIndexKeys t ((generateNextIdJSON t st).2) = []
      unfold generateNextIdJSON
      exact getIndexKeys_jsonSet _ _ _ _ _ h0 (keysOfIndexDoc_roundTrip_num _)
    · simp only [hauto, if_false]
      exact getIndexKeys_jsonSet _ _ _ _ _ h0 (keysOfIndexDoc_roundTrip_obj _)

theorem getIndexKeys_applyInserts (schema : TableSchema) (t : String) :
    ∀ (datas : List RowData) (st : Store), getIndexKeys t st = [] →
      getIndexKeys t (applyInserts schema t datas st) = []
  | [], _st, h => h
  | d :: ds, st, h =>
    getIndexKeys_applyInserts schema t ds _
      (getIndexKeys_ormInsert schema t d st h)

theorem getAllRecordsJSON_of_noIndex (t : String) (st : Store)
    (h : getIndexKeys t st = []) : getAllRecordsJSON t st = [] := by
  unfold getAllRecordsJSON
  rw [h]
  exact List.foldl_nil

theorem findAllJSON_of_noIndex (t : String) (opts : QueryOptions)
    (st : Store) (h : getIndexKeys t st = []) :
    findAllJSON t opts st = [] := by
  unfold findAllJSON
  rw [getAllRecordsJSON_of_noIndex t st h]
  cases ho : opts.offset <;> cases hl : opts.limit <;>
    simp [stableSort]

/-- C9: on the json provider, `QueryBuilder` reads only records whose
keys appear in the `_indexes` document, and `insert` never writes that
document (it writes only the record itself and the `_counters`
document, neither of which an index iteration can read keys from).
Hence, starting from a store holding no index document for a table,
`findAll` returns `[]` and `count` returns `0` after any sequence of
inserts into that table, and `update`/`delete` match nothing and leave
the store unchanged. -/
theorem C9_inserts_invisible_without_index (t : String)
    (schema : TableSchema) (datas : List RowData) (st : Store)
    (opts : QueryOptions) (udata : RowData)
    (h : kvGet (physKey "_indexes" (t ++ "_index")) st = none) :
    findAllJSON t opts (applyInserts schema t datas st) = [] ∧
    countJSON t opts (applyInserts schema t datas st) = 0 ∧
    updateJSON t udata opts (applyInserts schema t datas st) =
      (0, applyInserts schema t datas st) ∧
    deleteJSON t opts (applyInserts schema t datas st) =
      (0, applyInserts schema t datas st) := by
  have h0 : getIndexKeys t st = [] := by
    unfold getIndexKeys jsonGet
    rw [h]
    rfl
  have hfold := getIndexKeys_applyInserts schema t datas st h0
  have hrec := getAllRecordsJSON_of_noIndex t _ hfold
  refine ⟨findAllJSON_of_noIndex t opts _ hfold, ?_, ?_, ?_⟩
  · unfold countJSON
    rw [findAllJSON_of_noIndex t opts _ hfold]
    rfl
  · unfold updateJSON
    rw [hrec]
    rfl
  · unfold deleteJSON
    rw [hrec]
    rfl

/-- Witness for `C9_inserts_invisible_without_index`: the §8 scenario —
three inserts into an empty store, then `findAll`. -/
theorem C9_witness :
    findAllJSON "users" c2Opts
        (applyInserts c2Schema "users" c2Datas []) = [] ∧
    countJSON "users" c2Opts
        (applyInserts c2Schema "users" c2Datas []) = 0 ∧
    updateJSON "users" [] c2Opts
        (applyInserts c2Schema "users" c2Datas []) =
      (0, applyInserts c2Schema "users" c2Datas []) ∧
    deleteJSON "users" c2Opts
        (applyInserts c2Schema "users" c2Datas []) =
      (0, applyInserts c2Schema "users" c2Datas []) :=
  C9_inserts_invisible_without_index "users" c2Schema c2Datas [] c2Opts []
    rfl

/-- C2: evaluating the code at the failing input. With the §8 schema and
rows, the key/value (`json`) strategy returns `[]` — `insertJSON` stores
the rows but never writes the `_indexes` document `findAllJSON` reads —
while the relational strategy (modelled from the spec; the SQL engine is
the external wa-sqlite dependency) returns `[C(25), B(30)]`. The two
strategies therefore disagree, refuting the cross-strategy equivalence
on this input. -/
theorem C2_code_bug_eval :
    findAllJSON "users" c2Opts (applyInserts c2Schema "users" c2Datas [])
      = [] ∧
    relFindAll c2Opts (relApplyInserts c2Schema c2Datas []) =
      [[("name", .vstr "C"), ("age", .vnum 25), ("id", .vnum 3)],
       [("name", .vstr "B"), ("age", .vnum 30), ("id", .vnum 2)]] ∧
    ([] : List StorageValue) ≠
      [.vobj [("name", .vstr "C"), ("age", .vnum 25), ("id", .vnum 3)],
       .vobj [("name", .vstr "B"), ("age", .vnum 30), ("id", .vnum 2)]] :=
  ⟨rfl, rfl, by simp⟩

/-- C5 counterexample: the §8 validation example. Inserting
`{name: "X"}` into a schema whose `age` column is `notNull` is rejected
before any write and the message names `age` — but the thrown error is a
plain `new Error(...)` (constructor name `Error`), not the library's
`ValidationError` class, refuting the claim as stated. -/
theorem C5_counterexample :
    validateData c5Schema "users" [("name", .vstr "X")] =
      .error { name := "Error", msg := notNullMsg "age", cause := none } ∧
    ormInsertJSON c5Schema "users" [("name", .vstr "X")] [] =
      (.error { name := "Error", msg := notNullMsg "age", cause := none },
        []) ∧
    ("Error" : String) ≠ "ValidationError" :=
  ⟨rfl, rfl, by decide⟩

/-- C5 (amended): an insert or update whose data contains a column not
in the schema, or whose data is null/missing for a `notNull` column, is
rejected before any write occurs with an error naming the offending
column — but it is a plain `Error`, not a `ValidationError`. -/
theorem C5_validation_rejects (schema : TableSchema) (tbl : String)
    (data : RowData) (st : Store)
    (h : (∃ p ∈ data, (schema.map Prod.fst).contains p.1 = false) ∨
         ((∀ p ∈ data, (schema.map Prod.fst).contains p.1 = true) ∧
          ∃ q ∈ schema, q.2.notNull = true ∧
            isNullish (List.lookup q.1 data) = true)) :
    ∃ e : JsError, validateData schema tbl data = .error e ∧
      e.name = "Error" ∧
      (∃ c,
        ((∃ v, (c, v) ∈ data) ∧ (schema.map Prod.fst).contains c = false ∧
          e.msg = unknownColumnMsg c tbl) ∨
        (∃ d, (c, d) ∈ schema ∧ d.notNull = true ∧
          isNullish (List.lookup c data) = true ∧ e.msg = notNullMsg c)) ∧
      ormInsertJSON schema tbl data st = (.error e, st) := by
  cases hfind :
      data.find? (fun p => !((schema.map Prod.fst).contains p.1)) with
  | some p =>
    have hval : validateData schema tbl data =
        .error (mkError (unknownColumnMsg p.1 tbl)) := by
      unfold validateData
      rw [hfind]
    refine ⟨mkError (unknownColumnMsg p.1 tbl), hval, rfl, ?_, ?_⟩
    · refine ⟨p.1, Or.inl ⟨⟨p.2, List.mem_of_find?_eq_some hfind⟩, ?_, rfl⟩⟩
      have := List.find?_some hfind
      simpa using this
    · unfold ormInsertJSON
      rw [hval]
  | none =>
    have hall := List.find?_eq_none.mp hfind
    have hex : ∃ q ∈ schema, q.2.notNull = true ∧
        isNullish (List.lookup q.1 data) = true := by
      rcases h with ⟨p, hp, hc⟩ | ⟨_, hex⟩
      · exact absurd hc (by simpa using hall p hp)
      · exact hex
    have hsome : (schema.find?
        (fun p => p.2.notNull && isNullish (List.lookup p.1 data))).isSome := by
      rw [List.find?_isSome]
      rcases hex with ⟨q, hq, h1, h2⟩
      exact ⟨q, hq, by simp [h1, h2]⟩
    cases hfind2 : schema.find?
        (fun p => p.2.notNull && isNullish (List.lookup p.1 data)) with
    | none => rw [hfind2] at hsome; cases hsome
    | some q =>
      have hval : validateData schema tbl data =
          .error (mkError (notNullMsg q.1)) := by
        unfold validateData
        rw [hfind, hfind2]
      refine ⟨mkError (notNullMsg q.1), hval, rfl, ?_, ?_⟩
      · refine ⟨q.1, Or.inr ⟨q.2, List.mem_of_find?_eq_some hfind2, ?_⟩⟩
        have := List.find?_some hfind2
        simp only [Bool.and_eq_true] at this
        exact ⟨this.1, this.2, rfl⟩
      · unfold ormInsertJSON
        rw [hval]

/-- Witness for `C5_validation_rejects`: the §8 example input. -/
theorem C5_witness :
    ∃ e : JsError,
      validateData c5Schema "users" [("name", .vstr "X")] = .error e ∧
      e.name = "Error" ∧
      (∃ c,
        ((∃ v, (c, v) ∈ ([("name", StorageValue.vstr "X")] : RowData)) ∧
          (c5Schema.map Prod.fst).contains c = false ∧
          e.msg = unknownColumnMsg c "users") ∨
        (∃ d, (c, d) ∈ c5Schema ∧ d.notNull = true ∧
          isNullish (List.lookup c [("name", StorageValue.vstr "X")]) = true ∧
          e.msg = notNullMsg c)) ∧
      ormInsertJSON c5Schema "users" [("name", .vstr "X")] [] =
        (.error e, []) :=
  C5_validation_rejects c5Schema "users" [("name", .vstr "X")] []
    (Or.inr ⟨by decide,
      ⟨("age", { type := .integer, notNull := true }),
        List.mem_cons_of_mem _ (List.mem_cons_self _ _), rfl, rfl⟩⟩)

/-- C6 counterexample: on the json provider, `dropTable` is not a no-op
— it deletes every record of the table (`dropTable` delegates to
`clear`) — and `createTable("")` does not succeed (`!name` rejects the
empty table name). -/
theorem C6_counterexample :
    jsonDropTable "t" [(physKey "t" "k", serializeValue (.vstr "v"))] =
      .ok [] ∧
    ([] : Store) ≠ [(physKey "t" "k", serializeValue (.vstr "v"))] ∧
    jsonCreateTable "" [] = .error (mkError "Invalid table name") :=
  ⟨rfl, fun h => List.noConfusion h, rfl⟩

/-- C6 (amended): `createTable(name)` succeeds and leaves the store
unchanged for every nonempty name, but throws "Invalid table name" for
the empty name; `dropTable(name)` always succeeds but equals
`clear(name)`: records of other tables (physical keys without the
`name:` prefix) survive, while every record of the dropped table is
removed. -/
theorem C6_table_lifecycle (name : String) (st : Store) :
    (name ≠ "" → jsonCreateTable name st = .ok st) ∧
    jsonCreateTable "" st = .error (mkError "Invalid table name") ∧
    jsonDropTable name st = .ok (jsonClear name st) ∧
    (∀ t k, strStartsWith (physKey t k) (name ++ ":") = false →
        jsonGet t k (jsonClear name st) = jsonGet t k st) ∧
    (∀ k, jsonGet name k (jsonClear name st) = none) := by
  refine ⟨?_, ?_, rfl, ?_, ?_⟩
  · intro h
    simp [jsonCreateTable, h]
  · rfl
  · intro t k hpre
    unfold jsonGet jsonClear kvGet
    rw [lookup_jsonClear_kept _ _ hpre]
  · intro k
    unfold jsonGet jsonClear kvGet
    rw [lookup_jsonClear_dropped _ _ (physKey_startsWith name k)]
    rfl

/-- Witness for `C6_table_lifecycle`, at `name = "t"` over a two-table
store. -/
theorem C6_witness :
    jsonCreateTable "t" [(physKey "u" "k", serializeValue (.vnum 1))] =
      .ok [(physKey "u" "k", serializeValue (.vnum 1))] ∧
    jsonGet "u" "k"
        (jsonClear "t" [(physKey "u" "k", serializeValue (.vnum 1))]) =
      jsonGet "u" "k" [(physKey "u" "k", serializeValue (.vnum 1))] := by
  have h := C6_table_lifecycle "t"
    [(physKey "u" "k", serializeValue (.vnum 1))]
  exact ⟨h.1 (by decide), h.2.2.2.1 "u" "k" (by decide)⟩

/-- C10: table/key namespacing is not injective. The distinct pairs
`("a", "b:c")` and `("a:b", "c")` map to the same physical key, so a
`set` on the first is returned by a `get` on the second; and
`listTables` reports the text before the first `:` of each physical key
— `["a"]` — rather than the caller-supplied table name `"a:b"`. -/
theorem C10_namespacing_collision :
    physKey "a" "b:c" = physKey "a:b" "c" ∧
    (("a", "b:c") : String × String) ≠ ("a:b", "c") ∧
    jsonGet "a:b" "c" (jsonSet "a" "b:c" (.vstr "v") []) =
      some (.vstr "v") ∧
    jsonListTables (jsonSet "a:b" "c" (.vstr "v") []) = ["a"] ∧
    (["a"] : List String) ≠ ["a:b"] :=
  ⟨rfl, by decide, rfl, rfl, by decide⟩

/-- C3 (amended): the SQL-native transaction object is terminal after
`commit`/`rollback` and every subsequent operation then fails — but with
a plain `Error` whose message is "Transaction is no longer active" (no
`TransactionInactiveError` class exists in the library); the JSON
provider's wrapper, by contrast, never becomes terminal: its `commit`
succeeds without deactivating it, its other operations ignore the
transaction state entirely, and its `rollback` always throws, in any
state. -/
theorem C3_terminal_transaction (tx : SqlTx) (t k : String)
    (v : StorageValue) (hterm : tx.isActive = false) :
    sqlTxGet tx t k = .error inactiveErr ∧
    sqlTxSet tx t k v = .error inactiveErr ∧
    sqlTxDelete tx t k = .error inactiveErr ∧
    sqlTxExists tx t k = .error inactiveErr ∧
    sqlTxClear tx t = .error inactiveErr ∧
    sqlTxCommit tx = .error inactiveErr ∧
    sqlTxRollback tx = .error inactiveErr ∧
    (∀ tx' : SqlTx, tx'.isActive = true →
      (∃ txc, sqlTxCommit tx' = .ok txc ∧ txc.isActive = false) ∧
      (∃ txr, sqlTxRollback tx' = .ok txr ∧ txr.isActive = false)) ∧
    inactiveErr = mkError "Transaction is no longer active" ∧
    (∀ (mode : TransactionMode) (st : Store) (tb kb : String)
        (w : StorageValue) (txj : JsonTx),
      jsonTxCommit (jsonTxWrapper mode) = .ok txj →
      txj.isActive = true ∧
      jsonTxGet st tb kb = .ok (jsonGet tb kb st) ∧
      jsonTxSet st tb kb w = .ok (jsonSet tb kb w st) ∧
      jsonTxRollback txj = .error (mkError "Rollback not supported")) := by
  refine ⟨?_, ?_, ?_, ?_, ?_, ?_, ?_, ?_, rfl, ?_⟩
  · simp [sqlTxGet, hterm]
  · simp [sqlTxSet, hterm]
  · simp [sqlTxDelete, hterm]
  · simp [sqlTxExists, hterm]
  · simp [sqlTxClear, hterm]
  · simp [sqlTxCommit, hterm]
  · simp [sqlTxRollback, hterm]
  · intro tx' h
    exact ⟨⟨{ tx' with isActive := false }, by simp [sqlTxCommit, h], rfl⟩,
      ⟨{ tx' with isActive := false }, by simp [sqlTxRollback, h], rfl⟩⟩
  · intro mode st tb kb w txj hc
    have : txj = jsonTxWrapper mode := by
      simpa [jsonTxCommit] using hc.symm
    subst this
    exact ⟨rfl, rfl, rfl, rfl⟩

/-- C3 counterexample: on the JSON provider's transaction wrapper a
`commit()` completes (reaching what the claim calls a terminal state),
yet a subsequent `get` succeeds and returns the stored value instead of
failing with `TransactionInactiveError` — and the wrapper is even still
flagged active. -/
theorem C3_counterexample :
    jsonTxCommit (jsonTxWrapper .readwrite) =
      .ok (jsonTxWrapper .readwrite) ∧
    (jsonTxWrapper .readwrite).isActive = true ∧
    jsonTxGet (jsonSet "t" "k" (.vstr "v") []) "t" "k" =
      .ok (some (.vstr "v")) :=
  ⟨rfl, rfl, rfl⟩

/-- Witness for `C3_terminal_transaction`: a committed (inactive)
transaction over an empty engine state. -/
theorem C3_witness :
    sqlTxGet ⟨.readwrite, false, []⟩ "t" "k" = .error inactiveErr ∧
    sqlTxCommit ⟨.readwrite, false, []⟩ = .error inactiveErr := by
  have h := C3_terminal_transaction ⟨.readwrite, false, []⟩ "t" "k"
    (.vnull) rfl
  exact ⟨h.1, h.2.2.2.2.2.1⟩

/-- C4 (amended): when the transaction callback throws on the
SQL-native path, a rollback is attempted; if the rollback succeeds the
callback's original error is re-raised unchanged, but if the rollback
itself fails, the rollback error replaces the original — the original
is lost, not preserved as a cause. On the JSON provider no rollback is
attempted and the callback outcome propagates unchanged. -/
theorem C4_callback_failure_semantics :
    (∀ (e : JsError) (c : Except JsError Unit),
      @sqlProviderTransactionRun Unit (.error e) c (.ok ()) =
        (.error e, true)) ∧
    (∀ (e er : JsError) (c : Except JsError Unit),
      @sqlProviderTransactionRun Unit (.error e) c (.error er) =
        (.error er, true)) ∧
    (∀ cb : Except JsError Unit,
      @jsonProviderTransactionRun Unit cb = (cb, false)) :=
  ⟨fun _ _ => rfl, fun _ _ _ => rfl, fun _ => rfl⟩

/-- C4 counterexample: callback error "boom", rollback error "rollback
failed" — the surfaced error is the rollback error with no cause; the
original error is neither re-raised nor preserved as a cause. -/
theorem C4_counterexample :
    @sqlProviderTransactionRun Unit (.error (mkError "boom")) (.ok ())
        (.error (mkError "rollback failed")) =
      (.error (mkError "rollback failed"), true) ∧
    mkError "rollback failed" ≠ mkError "boom" ∧
    (mkError "rollback failed").cause = none :=
  ⟨rfl, by decide, rfl⟩

/-- C7: on the relational (sqlite) backend, `batch(operations)` runs all
entries inside one implicit read-write transaction: either every
operation is applied in order (the committed state is exactly
`processBatch`'s result), or — as soon as any operation fails — the
transaction is rolled back and the visible store is the unchanged
pre-batch store, with the error re-thrown. (The engine's
`BEGIN`/`COMMIT`/`ROLLBACK` semantics are modelled from the spec; the
control flow is `SqlProvider.batch`/`transaction` and
`SqlTransaction.processBatch` from src.) -/
theorem C7_batch_all_or_nothing (ops : List BatchOperation)
    (db : SqlStore) :
    (∃ tx', processBatch ⟨.readwrite, true, db⟩ ops = .ok tx' ∧
        sqlProviderBatch ops db = (tx'.db, none)) ∨
    (∃ e, processBatch ⟨.readwrite, true, db⟩ ops = .error e ∧
        sqlProviderBatch ops db = (db, some e)) := by
  unfold sqlProviderBatch
  cases h : processBatch ⟨.readwrite, true, db⟩ ops with
  | ok tx' => exact Or.inl ⟨tx', rfl, by simp⟩
  | error e => exact Or.inr ⟨e, rfl, by simp⟩

theorem mem_allStorageBackends (b : StorageBackendType) :
    b ∈ allStorageBackends := by
  cases b <;> simp [allStorageBackends]

/-- C8: the backend selector is total — for every requested mode and
capability snapshot it returns a member of the `StorageBackendType`
enumeration — and deterministic: equal capability snapshots and equal
modes yield equal backend identifiers. -/
theorem C8_selector_total_deterministic (m : DatabaseProviderType)
    (c₁ c₂ : BrowserCapabilities) (h : c₁ = c₂) :
    getBestStorageBackend m c₁ = getBestStorageBackend m c₂ ∧
    getBestStorageBackend m c₁ ∈ allStorageBackends := by
  subst h
  exact ⟨rfl, mem_allStorageBackends _⟩

/-- Witness for `C8_selector_total_deterministic`: `auto` mode on a
Chrome snapshot with the extension storage available. -/
theorem C8_witness :
    getBestStorageBackend .auto ⟨.chrome, true, true, true, true, false⟩ =
      getBestStorageBackend .auto ⟨.chrome, true, true, true, true, false⟩ ∧
    getBestStorageBackend .auto ⟨.chrome, true, true, true, true, false⟩ ∈
      allStorageBackends :=
  C8_selector_total_deterministic .auto
    ⟨.chrome, true, true, true, true, false⟩
    ⟨.chrome, true, true, true, true, false⟩ rfl

end WebExtDB
